import Mathlib

/-!
A shallow embedding of `src/DataGrid.js` (the single component of the
`uploader` repository) and proofs about its state-transition functions.

Modelling conventions:
* A JS row object is a `Row`: an `oid : Nat` models the object's identity
  (reference equality `===` between live objects is equality of `oid`,
  and in any JS-representable state two rows with the same `oid` are the
  same object, hence have the same fields), and `fields` is the object's
  ordered key/value mapping.
* JS numbers are modelled as integers; the claims under study do not
  depend on floating-point behaviour.
* The component state (`useState` hooks) is a `GridState`; each event
  handler of the component becomes a function `GridState → ... → GridState`.
  Fresh objects created by spread (`{ ...row, [k]: v }`) draw their `oid`
  from the `nextOid` allocator carried in the state.
* The external parsers (PapaParse / `JSON.parse`) are abstracted by a
  `ParseOutcome` argument to `handleFileUpload`; `Papa.unparse` is
  modelled by `unparse` below (fields taken from the first row, comma
  delimiter, CRLF record separator, quoting for delimiter/quote/newline).
-/

/-- JS `s.toLowerCase()`: lower-case every character. -/
def lowerStr (s : String) : String :=
  (s.toList.map Char.toLower).asString

/-- JS `s.trim()`: strip leading and trailing whitespace. -/
def trimStr (s : String) : String :=
  ((s.toList.dropWhile Char.isWhitespace).reverse.dropWhile
    Char.isWhitespace).reverse.asString

/-- JS `!s.trim()`: the string is empty or all whitespace. -/
def blankStr (s : String) : Bool :=
  s.toList.all Char.isWhitespace

/-- Strict lexicographic comparison of character lists; the JS `<` on
strings. -/
def charsLt : List Char → List Char → Bool
  | [], [] => false
  | [], _ :: _ => true
  | _ :: _, [] => false
  | a :: s, b :: t => if a < b then true else if b < a then false else charsLt s t

/-- Digits-only numeral parse, the body of `parseIntChars`. -/
def parseNatChars (cs : List Char) : Option Nat :=
  match cs with
  | [] => none
  | _ =>
    if cs.all Char.isDigit then
      some (cs.foldl (fun n c => n * 10 + (c.toNat - 48)) 0)
    else none

/-- JS `ToNumber` on a trimmed non-blank string, restricted to the
integer numerals this model supports; `none` stands for `NaN`. -/
def parseIntChars (cs : List Char) : Option Int :=
  match cs with
  | '-' :: t => (parseNatChars t).map fun n => -(n : Int)
  | '+' :: t => (parseNatChars t).map fun n => (n : Int)
  | _ => (parseNatChars cs).map fun n => (n : Int)

/-- A JS scalar cell value, as produced by the CSV/JSON importers. -/
inductive Value where
  | str (s : String)
  | num (n : Int)
  | bool (b : Bool)
  | null
  | undefinedV
  deriving DecidableEq

/-- JS `String(value)` on the values the grid can hold. -/
def jsString : Value → String
  | .str s => s
  | .num n => toString n
  | .bool b => if b then "true" else "false"
  | .null => "null"
  | .undefinedV => "undefined"

/-- `charsContain pat hay = true` iff `pat` occurs as a contiguous
subsequence of `hay`; models JS `hay.includes(pat)` on the char level. -/
def charsContain (pat : List Char) : List Char → Bool
  | [] => pat.isEmpty
  | c :: t => pat.isPrefixOf (c :: t) || charsContain pat t

/-- JS `hay.includes(pat)`. -/
def strIncludes (hay pat : String) : Bool :=
  charsContain pat.toList hay.toList

/-- One step of the search filter:
`String(value).toLowerCase().includes(term.toLowerCase())`. -/
def matchesTerm (term : String) (v : Value) : Bool :=
  strIncludes (lowerStr (jsString v)) (lowerStr term)

/-- A row object: `oid` models JS object identity, `fields` the ordered
key/value pairs. -/
structure Row where
  oid : Nat
  fields : List (String × Value)
  deriving DecidableEq

/-- JS property read `row[k]`: the stored value, or `undefined` when the
key is absent. -/
def Row.get (r : Row) (k : String) : Value :=
  match r.fields.lookup k with
  | some v => v
  | none => .undefinedV

/-- JS spread-update `{ ...fields, [k]: v }`: replaces the value at an
existing key in place, otherwise appends the new key at the end. -/
def setField : List (String × Value) → String → Value → List (String × Value)
  | [], k, v => [(k, v)]
  | p :: t, k, v => if p.1 == k then (k, v) :: t else p :: setField t k v

/-- A column descriptor `{ key, label, type }`. -/
structure Column where
  key : String
  label : String
  type : String
  deriving DecidableEq

/-- The two sort directions of `sortConfig.direction`. -/
inductive Direction where
  | asc
  | desc
  deriving DecidableEq

/-- The `sortConfig` state: `{ key: null | string, direction }`. -/
structure SortConfig where
  key : Option String
  direction : Direction
  deriving DecidableEq

/-- The full component state (the `useState` hooks of `DataGrid`), plus
the `nextOid` allocator for fresh object identities. `selectedRows`
models the JS `Set` of projection indices as its insertion-ordered list
of distinct elements. -/
structure GridState where
  data : List Row
  columns : List Column
  filteredData : List Row
  searchTerm : String
  sortConfig : SortConfig
  selectedRows : List Nat
  editingCell : Option (Nat × String)
  nextOid : Nat
  deriving DecidableEq

/-- `resetDataGrid`: back to the empty/upload state. -/
def resetDataGrid (s : GridState) : GridState :=
  { s with
    data := []
    columns := []
    filteredData := []
    searchTerm := ""
    sortConfig := { key := none, direction := .asc }
    selectedRows := []
    editingCell := none }

/-- Outcome of the external parser (PapaParse for CSV, `JSON.parse` for
JSON, with a single JSON object already wrapped into a one-row list). -/
inductive ParseOutcome where
  | ok (rows : List Row)
  | err (message : String)

/-- `handleFileUpload`, after the external parser has run. On a parse
error the code only logs (`console.error`) and resets `isUploading`; no
grid state is touched. On success with a non-empty row list the schema
is derived from the first row's keys (trimmed on the CSV path,
`trimKeys = true`; untrimmed on the JSON path) and `data` and
`filteredData` are both set to the parsed rows. -/
def handleFileUpload (s : GridState) (trimKeys : Bool) (outcome : ParseOutcome) :
    GridState :=
  match outcome with
  | .err _ => s
  | .ok [] => s
  | .ok (r0 :: rest) =>
    let keyOf : String → String := fun k => if trimKeys then trimStr k else k
    let cols := r0.fields.map fun p =>
      ({ key := keyOf p.1, label := keyOf p.1, type := "text" } : Column)
    { s with columns := cols, data := r0 :: rest, filteredData := r0 :: rest }

/-- `row` passes the search filter: some field value matches the term. -/
def rowMatches (term : String) (row : Row) : Bool :=
  (row.fields.map fun p => p.2).any (matchesTerm term)

/-- `handleSearch(term)`: stores the term; with a blank (empty after
trim) term the projection becomes the full dataset, otherwise the rows
whose values match the term. -/
def handleSearch (s : GridState) (term : String) : GridState :=
  if blankStr term then
    { s with searchTerm := term, filteredData := s.data }
  else
    { s with searchTerm := term, filteredData := s.data.filter (rowMatches term) }

/-- JS `ToNumber` on our values, with `none` standing for `NaN`.
Strings are parsed as (optionally signed) integers; a blank string is
`0`. -/
def toNum : Value → Option Int
  | .num n => some n
  | .bool b => some (if b then 1 else 0)
  | .null => some 0
  | .undefinedV => none
  | .str s => if blankStr s then some 0 else parseIntChars (trimStr s).toList

/-- The JS `<` operator on cell values: string comparison when both
operands are strings, otherwise numeric comparison after `ToNumber`
(false whenever an operand converts to `NaN`). -/
def jsLT : Value → Value → Bool
  | .str a, .str b => charsLt a.toList b.toList
  | a, b =>
    match toNum a, toNum b with
    | some x, some y => decide (x < y)
    | _, _ => false

/-- The comparator passed to `Array.prototype.sort` by `handleSort`. -/
def sortCmp (columnKey : String) (dir : Direction) (a b : Row) : Int :=
  let aVal := a.get columnKey
  let bVal := b.get columnKey
  if jsLT aVal bVal then (if dir = .asc then -1 else 1)
  else if jsLT bVal aVal then (if dir = .asc then 1 else -1)
  else 0

/-- `[...filteredData].sort(cmp)` modelled as the stable sort by the
comparator (ES2019 `Array.prototype.sort` is stable). -/
def sortJS (columnKey : String) (dir : Direction) (l : List Row) : List Row :=
  List.insertionSort (fun a b => sortCmp columnKey dir a b ≤ 0) l

/-- `handleSort(columnKey)`: direction is ascending unless the same
column is already sorted ascending, in which case it flips to
descending; the current projection is re-sorted accordingly. -/
def handleSort (s : GridState) (columnKey : String) : GridState :=
  let direction : Direction :=
    if s.sortConfig.key = some columnKey ∧ s.sortConfig.direction = .asc then
      .desc
    else .asc
  { s with
    filteredData := sortJS columnKey direction s.filteredData
    sortConfig := { key := some columnKey, direction := direction } }

/-- `toggleRowSelection(rowIndex)`: flips membership of a projection
index in the selection set. -/
def toggleRowSelection (s : GridState) (rowIndex : Nat) : GridState :=
  if s.selectedRows.contains rowIndex then
    { s with selectedRows := s.selectedRows.filter fun i => i != rowIndex }
  else
    { s with selectedRows := s.selectedRows ++ [rowIndex] }

/-- JS `data.findIndex(row => row === target)`, with `none` for `-1`. -/
def findIndexRow (target : Row) : List Row → Option Nat
  | [] => none
  | r :: t =>
    if r = target then some 0 else (findIndexRow target t).map fun i => i + 1

/-- `handleCellEdit(rowIndex, columnKey, newValue)`: locates the
canonical row behind the projected row by reference, replaces both the
canonical and the projected row by fresh spread-copies carrying the new
value, and clears the edit cursor. When the reference lookup fails
(`findIndex` returns `-1`), the JS code assigns to `newData[-1]`, which
stores a stray non-index property and leaves every array element
unchanged — modelled by leaving `data` as is. An out-of-range
`rowIndex` leaves both arrays' elements unchanged as well; the cursor
is cleared on every call. -/
def handleCellEdit (s : GridState) (rowIndex : Nat) (columnKey : String)
    (newValue : Value) : GridState :=
  match s.filteredData[rowIndex]? with
  | none => { s with editingCell := none }
  | some target =>
    let newData :=
      match findIndexRow target s.data with
      | some i =>
        s.data.set i { oid := s.nextOid, fields := setField target.fields columnKey newValue }
      | none => s.data
    let newFilteredData :=
      s.filteredData.set rowIndex
        { oid := s.nextOid + 1, fields := setField target.fields columnKey newValue }
    { s with
      data := newData
      filteredData := newFilteredData
      editingCell := none
      nextOid := s.nextOid + 2 }

/-- `addNewRow`: appends a fresh row with every schema column set to the
empty string; both `data` and `filteredData` are set to the new array. -/
def addNewRow (s : GridState) : GridState :=
  let newRow : Row :=
    { oid := s.nextOid
      fields := s.columns.foldl (fun fs c => setField fs c.key (.str "")) [] }
  let newData := s.data ++ [newRow]
  { s with data := newData, filteredData := newData, nextOid := s.nextOid + 1 }

/-- `deleteSelectedRows`: collects the projected rows at the selected
indices and removes (by reference) every canonical row among them; both
arrays become the new data and the selection is cleared. -/
def deleteSelectedRows (s : GridState) : GridState :=
  let rowsToDelete := s.selectedRows.map fun i => s.filteredData[i]?
  let newData := s.data.filter fun row => !(rowsToDelete.contains (some row))
  { s with data := newData, filteredData := newData, selectedRows := [] }

/-- Doubling of quote characters inside a quoted CSV field. -/
def escQuotes : List Char → List Char
  | [] => []
  | c :: t => if c == '"' then '"' :: '"' :: escQuotes t else c :: escQuotes t

/-- Papa's CSV field quoting: wrap in quotes (doubling inner quotes)
when the text holds the delimiter, a quote, or a line break. -/
def csvEscape (s : String) : String :=
  if s.toList.any (fun c => c == ',' || c == '"' || c == '\n' || c == '\r') then
    "\"" ++ (escQuotes s.toList).asString ++ "\""
  else s

/-- Join a list of strings with a separator (`Array.join` / the record
assembly inside `Papa.unparse`). -/
def joinSep (sep : String) : List String → String
  | [] => ""
  | [x] => x
  | x :: y :: t => x ++ sep ++ joinSep sep (y :: t)

/-- Papa's cell serialization: `null`/`undefined` become the empty
string, everything else its JS string form. -/
def csvCell : Value → String
  | .null => ""
  | .undefinedV => ""
  | v => jsString v

/-- The lines of `Papa.unparse(rows)`: on a non-empty row list, a header
taken from the first row's keys followed by one line per row. -/
def unparseLines (rows : List Row) : List String :=
  match rows with
  | [] => []
  | r0 :: _ =>
    let fields := r0.fields.map fun p => p.1
    let header := joinSep "," (fields.map csvEscape)
    let dataLines := rows.map fun r =>
      joinSep "," (fields.map fun k => csvEscape (csvCell (r.get k)))
    header :: dataLines

/-- `Papa.unparse(rows)` with the default CRLF record separator. -/
def unparse (rows : List Row) : String :=
  joinSep "\r\n" (unparseLines rows)

/-- `exportData`: the (download file name, CSV text) pair produced by
the export button; it serializes the current projection. -/
def exportData (s : GridState) : String × String :=
  ("data-export.csv", unparse s.filteredData)

/-! ### Helper lemmas -/

theorem lookup_setField (fs : List (String × Value)) (k : String) (v : Value) :
    List.lookup k (setField fs k v) = some v := by
  induction fs with
  | nil => simp [setField, List.lookup]
  | cons p t ih =>
    by_cases h : p.1 = k
    · simp [setField, h, List.lookup]
    · have hb : (p.1 == k) = false := by simp [h]
      have hb2 : (k == p.1) = false := by simp [Ne.symm h]
      simp [setField, hb, List.lookup, hb2, ih]

theorem get_setField (o : Nat) (fs : List (String × Value)) (k : String) (v : Value) :
    Row.get { oid := o, fields := setField fs k v } k = v := by
  simp [Row.get, lookup_setField]

theorem findIndexRow_of_mem (a : Row) (l : List Row) (h : a ∈ l) :
    ∃ i, findIndexRow a l = some i ∧ l[i]? = some a := by
  induction l with
  | nil => cases h
  | cons r t ih =>
    by_cases hr : r = a
    · exact ⟨0, by simp [findIndexRow, hr], by simp [hr]⟩
    · have ht : a ∈ t := by
        rcases List.mem_cons.mp h with he | ht
        · exact absurd he.symm hr
        · exact ht
      obtain ⟨i, h1, h2⟩ := ih ht
      exact ⟨i + 1, by simp [findIndexRow, hr, h1], by simpa using h2⟩

theorem findIndexRow_of_not_mem (a : Row) (l : List Row) (h : a ∉ l) :
    findIndexRow a l = none := by
  induction l with
  | nil => rfl
  | cons r t ih =>
    have hr : ¬ r = a := by intro e; exact h (by simp [e])
    have ht : a ∉ t := by intro m; exact h (by simp [m])
    simp [findIndexRow, hr, ih ht]

theorem handleSort_config (s : GridState) (c : String) :
    (handleSort s c).sortConfig =
      { key := some c,
        direction :=
          if s.sortConfig.key = some c ∧ s.sortConfig.direction = .asc then
            .desc
          else .asc } := rfl

theorem handleSort_filtered (s : GridState) (c : String) :
    (handleSort s c).filteredData =
      sortJS c
        (if s.sortConfig.key = some c ∧ s.sortConfig.direction = .asc then
          .desc
        else .asc)
        s.filteredData := rfl

/-! ### Concrete states used by witnesses and counterexamples -/

/-- A two-column scenario row (the spec's `Alice,30`). -/
def rowAlice : Row := { oid := 0, fields := [("name", .str "Alice"), ("age", .num 30)] }

/-- A two-column scenario row (the spec's `Bob,25`). -/
def rowBob : Row := { oid := 1, fields := [("name", .str "Bob"), ("age", .num 25)] }

/-- The scenario schema `[name, age]`. -/
def colsNameAge : List Column :=
  [{ key := "name", label := "name", type := "text" },
   { key := "age", label := "age", type := "text" }]

/-- The state right after importing the spec's two-row scenario file. -/
def gridAB : GridState :=
  { data := [rowAlice, rowBob]
    columns := colsNameAge
    filteredData := [rowAlice, rowBob]
    searchTerm := ""
    sortConfig := { key := none, direction := .asc }
    selectedRows := []
    editingCell := none
    nextOid := 2 }

/-! ### C9 -/

/-- C9: a sort click and a search-term change leave the canonical
dataset (rows and order), the column schema, and the selection set
unchanged; selection indices are neither invalidated nor remapped when
the projection changes shape. -/
theorem sortSearch_frame (s : GridState) (columnKey term : String) :
    (handleSort s columnKey).data = s.data ∧
    (handleSort s columnKey).columns = s.columns ∧
    (handleSort s columnKey).selectedRows = s.selectedRows ∧
    (handleSearch s term).data = s.data ∧
    (handleSearch s term).columns = s.columns ∧
    (handleSearch s term).selectedRows = s.selectedRows := by
  refine ⟨rfl, rfl, rfl, ?_, ?_, ?_⟩ <;>
    · unfold handleSearch
      split <;> rfl

/-! ### C10 -/

/-- C10: every call to `handleCellEdit` (fired from the cell input's
change event, hence on every keystroke) clears the edit cursor, so edit
mode is exited after each committed change, not only on blur or Enter. -/
theorem commitEdit_clears_cursor (s : GridState) (rowIndex : Nat)
    (columnKey : String) (v : Value) :
    (handleCellEdit s rowIndex columnKey v).editingCell = none := by
  unfold handleCellEdit
  split <;> rfl

/-! ### C8 -/

/-- C8: when the uploaded file fails to parse, `handleFileUpload` leaves
the whole grid state as it was; from the pre-upload state the canonical
dataset, schema, and projection therefore stay empty and no partial data
is shown. -/
theorem upload_error_spec (s : GridState) (trimKeys : Bool) (msg : String)
    (hdata : s.data = []) (hcols : s.columns = [])
    (hfilt : s.filteredData = []) :
    handleFileUpload s trimKeys (.err msg) = s ∧
    (handleFileUpload s trimKeys (.err msg)).data = [] ∧
    (handleFileUpload s trimKeys (.err msg)).columns = [] ∧
    (handleFileUpload s trimKeys (.err msg)).filteredData = [] :=
  ⟨rfl, hdata, hcols, hfilt⟩

/-- The empty pre-upload state. -/
def emptyGrid : GridState :=
  { data := []
    columns := []
    filteredData := []
    searchTerm := ""
    sortConfig := { key := none, direction := .asc }
    selectedRows := []
    editingCell := none
    nextOid := 0 }

/-- C8 witness: a failed parse on the pre-upload state leaves it empty. -/
theorem upload_error_spec_witness :
    emptyGrid.data = [] ∧ emptyGrid.columns = [] ∧ emptyGrid.filteredData = [] ∧
    (handleFileUpload emptyGrid true (.err "malformed") = emptyGrid ∧
     (handleFileUpload emptyGrid true (.err "malformed")).data = [] ∧
     (handleFileUpload emptyGrid true (.err "malformed")).columns = [] ∧
     (handleFileUpload emptyGrid true (.err "malformed")).filteredData = []) :=
  ⟨rfl, rfl, rfl, upload_error_spec emptyGrid true "malformed" rfl rfl rfl⟩

/-! ### C2 -/

/-- The scenario state with the filter `ali` active: the projection has
narrowed to the single matching row. -/
def gridABFiltered : GridState := handleSearch gridAB "ali"

/-- C2 counterexample: with the non-blank search term `ali` active
(matching only `Alice`), `addNewRow` puts the full new dataset into the
projection: the non-matching row `Bob` appears in the projection, so the
projection does not equal the active filter applied to the new canonical
dataset. -/
theorem addRow_ignores_filter_cex :
    (addNewRow gridABFiltered).searchTerm = "ali" ∧
    blankStr "ali" = false ∧
    gridABFiltered.filteredData = [rowAlice] ∧
    rowBob ∈ (addNewRow gridABFiltered).filteredData ∧
    rowMatches "ali" rowBob = false ∧
    (addNewRow gridABFiltered).filteredData ≠
      ((addNewRow gridABFiltered).data).filter (rowMatches "ali") := by
  decide

/-- C2 amended: after `addNewRow` and after `deleteSelectedRows` the
projection is recomputed synchronously, but as the entire new canonical
dataset — the active search filter and sort order are discarded rather
than re-applied. -/
theorem mutation_resets_projection (s : GridState) :
    (addNewRow s).filteredData = (addNewRow s).data ∧
    (deleteSelectedRows s).filteredData = (deleteSelectedRows s).data :=
  ⟨rfl, rfl⟩

/-! ### C1 -/

/-- The scenario state after two clicks on the `age` header: sorted
descending on `age`. -/
def gridABDesc : GridState := handleSort (handleSort gridAB "age") "age"

/-- C1 counterexample: from the reachable state sorted descending on
`age` (two clicks on that header), a third click on the same header sets
the direction back to ascending — it does not stay descending. -/
theorem sort_third_click_cex :
    gridABDesc.sortConfig = { key := some "age", direction := .desc } ∧
    (handleSort gridABDesc "age").sortConfig.direction = Direction.asc ∧
    Direction.asc ≠ Direction.desc := by
  decide

/-- C1 amended: clicking a column `c` that is not the currently sorted
column sorts the projection ascending by `c` (a stable sort of the
current projection, hence a permutation of it); a second click on `c`
flips to descending; a third click flips back to ascending. The sort
never returns to the unsorted state, toggling only between the two
directions. -/
theorem sort_toggle_amended (s : GridState) (c : String)
    (h : s.sortConfig.key ≠ some c) :
    (handleSort s c).sortConfig = { key := some c, direction := .asc } ∧
    (handleSort s c).filteredData = sortJS c .asc s.filteredData ∧
    (handleSort s c).filteredData.Perm s.filteredData ∧
    (handleSort (handleSort s c) c).sortConfig =
      { key := some c, direction := .desc } ∧
    (handleSort (handleSort (handleSort s c) c) c).sortConfig =
      { key := some c, direction := .asc } := by
  have h1 : (handleSort s c).sortConfig = { key := some c, direction := .asc } := by
    rw [handleSort_config, if_neg]
    rintro ⟨hk, _⟩
    exact h hk
  have h2 : (handleSort (handleSort s c) c).sortConfig =
      { key := some c, direction := .desc } := by
    rw [handleSort_config, if_pos]
    rw [h1]
    exact ⟨rfl, rfl⟩
  have h3 : (handleSort (handleSort (handleSort s c) c) c).sortConfig =
      { key := some c, direction := .asc } := by
    rw [handleSort_config, if_neg]
    rw [h2]
    rintro ⟨_, hd⟩
    cases hd
  have h4 : (handleSort s c).filteredData = sortJS c .asc s.filteredData := by
    rw [handleSort_filtered, if_neg]
    rintro ⟨hk, _⟩
    exact h hk
  refine ⟨h1, h4, ?_, h2, h3⟩
  rw [h4]
  exact List.perm_insertionSort _ _

/-- C1 witness: the amended toggle behaviour at the imported scenario
state, clicking the `age` header three times. -/
theorem sort_toggle_amended_witness :
    gridAB.sortConfig.key ≠ some "age" ∧
    ((handleSort gridAB "age").sortConfig = { key := some "age", direction := .asc } ∧
     (handleSort gridAB "age").filteredData = sortJS "age" .asc gridAB.filteredData ∧
     (handleSort gridAB "age").filteredData.Perm gridAB.filteredData ∧
     (handleSort (handleSort gridAB "age") "age").sortConfig =
       { key := some "age", direction := .desc } ∧
     (handleSort (handleSort (handleSort gridAB "age") "age") "age").sortConfig =
       { key := some "age", direction := .asc }) :=
  ⟨by decide, sort_toggle_amended gridAB "age" (by decide)⟩

/-! ### C4 -/

/-- C4: a blank (empty or all-whitespace) search term makes the
projection the full dataset; a non-blank term keeps, in dataset order
(the projection is a sublist of the dataset), exactly the rows in which
the lower-cased string form of some field value contains the lower-cased
term as a substring. -/
theorem search_filter_spec (s : GridState) (term : String) :
    (blankStr term = true → (handleSearch s term).filteredData = s.data) ∧
    (blankStr term = false →
      (handleSearch s term).filteredData.Sublist s.data ∧
      ∀ row : Row, row ∈ (handleSearch s term).filteredData ↔
        row ∈ s.data ∧ ∃ p ∈ row.fields, matchesTerm term p.2 = true) := by
  constructor
  · intro h
    unfold handleSearch
    rw [if_pos h]
  · intro h
    have hf : (handleSearch s term).filteredData = s.data.filter (rowMatches term) := by
      unfold handleSearch
      rw [if_neg (by simp [h])]
    rw [hf]
    refine ⟨List.filter_sublist _, ?_⟩
    intro row
    rw [List.mem_filter]
    constructor
    · rintro ⟨hm, hr⟩
      refine ⟨hm, ?_⟩
      simp only [rowMatches, List.any_eq_true] at hr
      obtain ⟨v, hv, hmt⟩ := hr
      rw [List.mem_map] at hv
      obtain ⟨p, hp, rfl⟩ := hv
      exact ⟨p, hp, hmt⟩
    · rintro ⟨hm, p, hp, hmt⟩
      refine ⟨hm, ?_⟩
      simp only [rowMatches, List.any_eq_true]
      exact ⟨p.2, List.mem_map.mpr ⟨p, hp, rfl⟩, hmt⟩

/-- C4 witness: searching `ali` on the scenario dataset keeps a sublist
of the dataset, and the membership characterization holds at `rowAlice`. -/
theorem search_filter_spec_witness :
    blankStr "ali" = false ∧
    (handleSearch gridAB "ali").filteredData.Sublist gridAB.data ∧
    (rowAlice ∈ (handleSearch gridAB "ali").filteredData ↔
      rowAlice ∈ gridAB.data ∧ ∃ p ∈ rowAlice.fields, matchesTerm "ali" p.2 = true) :=
  ⟨by decide, ((search_filter_spec gridAB "ali").2 (by decide)).1,
    ((search_filter_spec gridAB "ali").2 (by decide)).2 rowAlice⟩

/-! ### C5 -/

/-- C5: when every selected index is a valid projection index,
`deleteSelectedRows` leaves the selection empty and keeps, in order,
exactly the canonical rows that do not appear in the projection at a
selected index — no other row is removed. -/
theorem delete_selected_spec (s : GridState)
    (hvalid : ∀ i ∈ s.selectedRows, i < s.filteredData.length) :
    (deleteSelectedRows s).selectedRows = [] ∧
    (deleteSelectedRows s).data.Sublist s.data ∧
    ∀ row : Row, row ∈ (deleteSelectedRows s).data ↔
      row ∈ s.data ∧ ¬ ∃ i ∈ s.selectedRows, s.filteredData[i]? = some row := by
  have hd : (deleteSelectedRows s).data =
      s.data.filter fun row =>
        !((s.selectedRows.map fun i => s.filteredData[i]?).contains (some row)) := rfl
  have hcontains : ∀ row : Row,
      ((s.selectedRows.map fun i => s.filteredData[i]?).contains (some row) = true) ↔
        ∃ i ∈ s.selectedRows, s.filteredData[i]? = some row := by
    intro row
    rw [List.contains_iff_exists_mem_beq]
    constructor
    · rintro ⟨x, hx, hbeq⟩
      rw [List.mem_map] at hx
      obtain ⟨i, hi, rfl⟩ := hx
      exact ⟨i, hi, (beq_iff_eq.mp hbeq).symm⟩
    · rintro ⟨i, hi, he⟩
      exact ⟨some row, List.mem_map.mpr ⟨i, hi, he⟩, beq_iff_eq.mpr rfl⟩
  refine ⟨rfl, hd ▸ List.filter_sublist _, ?_⟩
  intro row
  rw [hd, List.mem_filter]
  constructor
  · rintro ⟨hm, hp⟩
    refine ⟨hm, fun hex => ?_⟩
    rw [(hcontains row).mpr hex] at hp
    exact absurd hp (by decide)
  · rintro ⟨hm, hnex⟩
    refine ⟨hm, ?_⟩
    have hfalse : ((s.selectedRows.map fun i => s.filteredData[i]?).contains (some row)) = false := by
      cases hc : ((s.selectedRows.map fun i => s.filteredData[i]?).contains (some row))
      · rfl
      · exact absurd ((hcontains row).mp hc) hnex
    rw [hfalse]
    rfl

/-- The scenario state with the second projected row (`Bob`) selected. -/
def gridSelected : GridState := { gridAB with selectedRows := [1] }

/-- C5 witness: deleting with row index 1 (`Bob`) selected empties the
selection, removes exactly `Bob`, and keeps `Alice`; the membership
characterization holds at both rows. -/
theorem delete_selected_spec_witness :
    (∀ i ∈ gridSelected.selectedRows, i < gridSelected.filteredData.length) ∧
    (deleteSelectedRows gridSelected).selectedRows = [] ∧
    (deleteSelectedRows gridSelected).data.Sublist gridSelected.data ∧
    (rowAlice ∈ (deleteSelectedRows gridSelected).data ↔
      rowAlice ∈ gridSelected.data ∧
        ¬ ∃ i ∈ gridSelected.selectedRows, gridSelected.filteredData[i]? = some rowAlice) ∧
    (rowBob ∈ (deleteSelectedRows gridSelected).data ↔
      rowBob ∈ gridSelected.data ∧
        ¬ ∃ i ∈ gridSelected.selectedRows, gridSelected.filteredData[i]? = some rowBob) ∧
    (deleteSelectedRows gridSelected).data = [rowAlice] :=
  ⟨by decide, (delete_selected_spec gridSelected (by decide)).1,
    (delete_selected_spec gridSelected (by decide)).2.1,
    (delete_selected_spec gridSelected (by decide)).2.2 rowAlice,
    (delete_selected_spec gridSelected (by decide)).2.2 rowBob,
    by decide⟩

/-! ### C3 -/

/-- C3: when the projected row at index `r` is reference-identical to a
canonical row, `handleCellEdit r c v` makes reading column `c` of that
row return `v` in both the canonical dataset (at the index located by
the reference lookup) and the projection, and both positions now hold
fresh objects — distinct from each other and from every pre-existing
row object — so no row is mutated in place. -/
theorem commitEdit_updates_both (s : GridState) (r : Nat) (c : String) (v : Value)
    (target : Row)
    (hproj : s.filteredData[r]? = some target)
    (hcanon : target ∈ s.data)
    (hfresh : ∀ row ∈ s.data, row.oid < s.nextOid)
    (hfreshF : ∀ row ∈ s.filteredData, row.oid < s.nextOid) :
    ∃ i canonRow projRow,
      findIndexRow target s.data = some i ∧
      (handleCellEdit s r c v).data[i]? = some canonRow ∧
      (handleCellEdit s r c v).filteredData[r]? = some projRow ∧
      canonRow.get c = v ∧
      projRow.get c = v ∧
      canonRow.oid ≠ projRow.oid ∧
      (∀ row ∈ s.data, canonRow.oid ≠ row.oid ∧ projRow.oid ≠ row.oid) ∧
      (∀ row ∈ s.filteredData, canonRow.oid ≠ row.oid ∧ projRow.oid ≠ row.oid) := by
  obtain ⟨i, hfi, hgi⟩ := findIndexRow_of_mem target s.data hcanon
  have hilen : i < s.data.length := (List.getElem?_eq_some.mp hgi).1
  have hrlen : r < s.filteredData.length := (List.getElem?_eq_some.mp hproj).1
  have hdata : (handleCellEdit s r c v).data =
      s.data.set i { oid := s.nextOid, fields := setField target.fields c v } := by
    simp only [handleCellEdit, hproj, hfi]
  have hfilt : (handleCellEdit s r c v).filteredData =
      s.filteredData.set r
        { oid := s.nextOid + 1, fields := setField target.fields c v } := by
    simp only [handleCellEdit, hproj, hfi]
  refine ⟨i, { oid := s.nextOid, fields := setField target.fields c v },
    { oid := s.nextOid + 1, fields := setField target.fields c v },
    hfi, ?_, ?_, get_setField _ _ _ _, get_setField _ _ _ _, ?_, ?_, ?_⟩
  · rw [hdata]
    exact List.getElem?_set_self hilen
  · rw [hfilt]
    exact List.getElem?_set_self hrlen
  · show s.nextOid ≠ s.nextOid + 1
    omega
  · intro row hrow
    have hlt := hfresh row hrow
    exact ⟨show s.nextOid ≠ row.oid by omega,
      show s.nextOid + 1 ≠ row.oid by omega⟩
  · intro row hrow
    have hlt := hfreshF row hrow
    exact ⟨show s.nextOid ≠ row.oid by omega,
      show s.nextOid + 1 ≠ row.oid by omega⟩

/-- C3 witness: editing projected row 0, column `name`, to `Alicia` in
the imported scenario state. -/
theorem commitEdit_updates_both_witness :
    gridAB.filteredData[0]? = some rowAlice ∧
    rowAlice ∈ gridAB.data ∧
    (∀ row ∈ gridAB.data, row.oid < gridAB.nextOid) ∧
    (∀ row ∈ gridAB.filteredData, row.oid < gridAB.nextOid) ∧
    ∃ i canonRow projRow,
      findIndexRow rowAlice gridAB.data = some i ∧
      (handleCellEdit gridAB 0 "name" (.str "Alicia")).data[i]? = some canonRow ∧
      (handleCellEdit gridAB 0 "name" (.str "Alicia")).filteredData[0]? = some projRow ∧
      canonRow.get "name" = .str "Alicia" ∧
      projRow.get "name" = .str "Alicia" ∧
      canonRow.oid ≠ projRow.oid ∧
      (∀ row ∈ gridAB.data, canonRow.oid ≠ row.oid ∧ projRow.oid ≠ row.oid) ∧
      (∀ row ∈ gridAB.filteredData, canonRow.oid ≠ row.oid ∧ projRow.oid ≠ row.oid) :=
  ⟨by decide, by decide, by decide, by decide,
    commitEdit_updates_both gridAB 0 "name" (.str "Alicia") rowAlice
      (by decide) (by decide) (by decide) (by decide)⟩

/-! ### C7 -/

/-- C7: when the projected row at index `r` is not reference-identical
to any canonical row, `handleCellEdit` still completes without error
(it is a total function), leaves every existing canonical row unchanged
(the `findIndex` miss makes the canonical write a stray `-1` property
assignment), and still updates the projected row at `r` to hold the new
value. -/
theorem commitEdit_orphan_spec (s : GridState) (r : Nat) (c : String) (v : Value)
    (target : Row)
    (hproj : s.filteredData[r]? = some target)
    (hnot : target ∉ s.data) :
    (handleCellEdit s r c v).data = s.data ∧
    ∃ projRow, (handleCellEdit s r c v).filteredData[r]? = some projRow ∧
      projRow.get c = v := by
  have hfi := findIndexRow_of_not_mem target s.data hnot
  have hrlen : r < s.filteredData.length := (List.getElem?_eq_some.mp hproj).1
  have hdata : (handleCellEdit s r c v).data = s.data := by
    simp only [handleCellEdit, hproj, hfi]
  have hfilt : (handleCellEdit s r c v).filteredData =
      s.filteredData.set r
        { oid := s.nextOid + 1, fields := setField target.fields c v } := by
    simp only [handleCellEdit, hproj, hfi]
  refine ⟨hdata, { oid := s.nextOid + 1, fields := setField target.fields c v },
    ?_, get_setField _ _ _ _⟩
  rw [hfilt]
  exact List.getElem?_set_self hrlen

/-- A copy of `rowAlice` with a different object identity: equal fields,
not reference-identical to any canonical row. -/
def rowAliceCopy : Row :=
  { oid := 5, fields := [("name", .str "Alice"), ("age", .num 30)] }

/-- A state whose projection holds a copied row object that no canonical
row shares a reference with. -/
def gridOrphan : GridState :=
  { data := [rowAlice]
    columns := colsNameAge
    filteredData := [rowAliceCopy]
    searchTerm := ""
    sortConfig := { key := none, direction := .asc }
    selectedRows := []
    editingCell := none
    nextOid := 6 }

/-- C7 witness: editing the orphaned projected row leaves the canonical
dataset untouched while the projection picks up the new value. -/
theorem commitEdit_orphan_spec_witness :
    gridOrphan.filteredData[0]? = some rowAliceCopy ∧
    rowAliceCopy ∉ gridOrphan.data ∧
    ((handleCellEdit gridOrphan 0 "name" (.str "Mallory")).data = gridOrphan.data ∧
     ∃ projRow,
       (handleCellEdit gridOrphan 0 "name" (.str "Mallory")).filteredData[0]? =
         some projRow ∧
       projRow.get "name" = .str "Mallory") :=
  ⟨by decide, by decide,
    commitEdit_orphan_spec gridOrphan 0 "name" (.str "Mallory") rowAliceCopy
      (by decide) (by decide)⟩

/-! ### C6 -/

/-- C6: `exportData` serializes the current projection — not the full
canonical dataset — under the download name `data-export.csv`; when the
projection is non-empty and its rows carry exactly the schema's keys,
the CSV is one header line whose cells are the schema keys followed by
exactly one line per currently visible row. -/
theorem export_projection_spec (s : GridState) (r0 : Row) (rest : List Row)
    (hne : s.filteredData = r0 :: rest)
    (hkeys : ∀ row ∈ s.filteredData,
      row.fields.map (fun p => p.1) = s.columns.map (fun col => col.key)) :
    (exportData s).1 = "data-export.csv" ∧
    unparseLines s.filteredData =
      joinSep "," ((s.columns.map (fun col => col.key)).map csvEscape) ::
        s.filteredData.map (fun row =>
          joinSep ","
            ((s.columns.map (fun col => col.key)).map fun k =>
              csvEscape (csvCell (row.get k)))) ∧
    (unparseLines s.filteredData).length = s.filteredData.length + 1 ∧
    (exportData s).2 = joinSep "\r\n" (unparseLines s.filteredData) := by
  have hk0 : r0.fields.map (fun p => p.1) = s.columns.map (fun col => col.key) :=
    hkeys r0 (by rw [hne]; exact List.mem_cons_self r0 rest)
  have hlines : unparseLines s.filteredData =
      joinSep "," ((s.columns.map (fun col => col.key)).map csvEscape) ::
        s.filteredData.map (fun row =>
          joinSep ","
            ((s.columns.map (fun col => col.key)).map fun k =>
              csvEscape (csvCell (row.get k)))) := by
    rw [hne]
    simp only [unparseLines]
    rw [hk0]
  refine ⟨rfl, hlines, ?_, rfl⟩
  rw [hlines]
  simp [hne]

/-- A third scenario row for the export witness. -/
def rowCarol : Row := { oid := 2, fields := [("name", .str "Carol"), ("age", .num 41)] }

/-- A 3-row dataset filtered down to the single visible row `Alice`. -/
def gridExport : GridState :=
  { data := [rowAlice, rowBob, rowCarol]
    columns := colsNameAge
    filteredData := [rowAlice]
    searchTerm := "ali"
    sortConfig := { key := none, direction := .asc }
    selectedRows := []
    editingCell := none
    nextOid := 3 }

/-- C6 witness: exporting the 3-row dataset filtered down to 1 visible
row yields exactly 1 data row plus the header, under the fixed file
name. -/
theorem export_projection_spec_witness :
    gridExport.filteredData = rowAlice :: [] ∧
    (∀ row ∈ gridExport.filteredData,
      row.fields.map (fun p => p.1) = gridExport.columns.map (fun col => col.key)) ∧
    ((exportData gridExport).1 = "data-export.csv" ∧
     unparseLines gridExport.filteredData =
       joinSep "," ((gridExport.columns.map (fun col => col.key)).map csvEscape) ::
         gridExport.filteredData.map (fun row =>
           joinSep ","
             ((gridExport.columns.map (fun col => col.key)).map fun k =>
               csvEscape (csvCell (row.get k)))) ∧
     (unparseLines gridExport.filteredData).length =
       gridExport.filteredData.length + 1 ∧
     (exportData gridExport).2 = joinSep "\r\n" (unparseLines gridExport.filteredData)) ∧
    (unparseLines gridExport.filteredData).length = 2 ∧
    gridExport.data.length = 3 ∧
    (exportData gridExport).2 = "name,age\r\nAlice,30" :=
  ⟨by decide, by decide,
    export_projection_spec gridExport rowAlice [] (by decide) (by decide),
    by decide, by decide, by decide⟩

/-- The scenario state filtered by a term matching no row: the export
button is still shown (`data` is non-empty) but the projection is
empty. -/
def gridNoMatch : GridState := handleSearch gridAB "zzz"

/-- A one-key row `{"a": "x"}` from a heterogeneous JSON import. -/
def rowHetA : Row := { oid := 0, fields := [("a", .str "x")] }

/-- A one-key row `{"b": "y"}` from the same heterogeneous JSON import. -/
def rowHetB : Row := { oid := 1, fields := [("b", .str "y")] }

/-- The state after importing `[{"a":"x"},{"b":"y"}]` (schema `[a]`,
derived from the first row) and searching `y`, which leaves the
divergent-key row `{"b":"y"}` first in the projection. -/
def gridHetero : GridState :=
  handleSearch (handleFileUpload emptyGrid false (.ok [rowHetA, rowHetB])) "y"

/-- C6 counterexample: the claim fails for some reachable states.
First, filtering the imported scenario dataset down to zero visible
rows and exporting yields the empty CSV — there is no header row at
all, so the output does not consist of the schema-key header plus one
line per visible record. Second, after a heterogeneous JSON import
(schema `[a]` from the first row) filtered so that the row `{"b":"y"}`
is first in the projection, the exported header is that row's key `b`,
not the schema's keys. -/
theorem export_header_cex :
    gridNoMatch.data.length = 2 ∧
    gridNoMatch.columns = colsNameAge ∧
    gridNoMatch.filteredData = [] ∧
    unparseLines gridNoMatch.filteredData = [] ∧
    (exportData gridNoMatch).2 = "" ∧
    (unparseLines gridNoMatch.filteredData).length ≠
      gridNoMatch.filteredData.length + 1 ∧
    gridHetero.columns.map (fun col => col.key) = ["a"] ∧
    gridHetero.filteredData = [rowHetB] ∧
    unparseLines gridHetero.filteredData = ["b", "y"] ∧
    unparseLines gridHetero.filteredData ≠
      joinSep "," ((gridHetero.columns.map (fun col => col.key)).map csvEscape) ::
        gridHetero.filteredData.map (fun row =>
          joinSep ","
            ((gridHetero.columns.map (fun col => col.key)).map fun k =>
              csvEscape (csvCell (row.get k)))) := by
  decide
